import Mathlib

/-!
Verification of the pypim simple-index HTTP server (simple.go).

The Go program serves a locally mirrored Python package index.  The
definitions below are a shallow embedding of its pure core: name
canonicalization, the index page renderer, the project page renderer with
its on-disk presence filter, and the not-found handling.  Effects are made
explicit: the SQL store is a pair of row lists, the response writer is a
status plus the list of emitted chunks (one chunk per Fprintf call), the
filesystem stat call and the URL parser are function parameters.
-/

/-- The separator characters of the canonicalization pattern, dash,
    underscore and dot. -/
def isSep (c : Char) : Bool := c == '-' || c == '_' || c == '.'

/-- Replaces every maximal run of separator characters by a single dash,
    scanning left to right; the Boolean argument records whether the
    previous character belonged to a separator run.  This embeds the
    regular-expression replacement of canonicalizeName in simple.go,
    which rewrites each maximal match of the character class to a dash. -/
def replRuns : List Char → Bool → List Char
  | [], _ => []
  | c :: rest, inRun =>
      if isSep c then
        if inRun then replRuns rest true
        else '-' :: replRuns rest true
      else c :: replRuns rest false

/-- Models strings.ToLower from the Go standard library, character-wise.
    Lean maps the basic latin range; every input in the claims is ASCII,
    where the two agree. -/
def stringsToLower (s : String) : String := String.mk (s.data.map Char.toLower)

/-- canonicalizeName from simple.go: lower-case the name, then collapse
    every run of the characters dash, underscore, dot to a single dash. -/
def canonicalizeName (name : String) : String :=
  String.mk (replRuns (stringsToLower name).data false)

/-- Maps each separator character to a dash, leaving other characters
    unchanged. -/
def sepToDash (c : Char) : Char := if isSep c then '-' else c

/-- Collapses adjacent duplicate dashes into a single dash. -/
def squeezeDash : List Char → List Char
  | [] => []
  | [c] => [c]
  | c :: d :: rest =>
      if c = '-' ∧ d = '-' then squeezeDash (d :: rest)
      else c :: squeezeDash (d :: rest)

/-- Formulation following the specification text: the lowercase form with
    every maximal run of the characters dash, underscore, dot collapsed to
    a single dash (each separator becomes a dash, then adjacent dashes are
    merged). -/
def canonicalizeSpec (s : String) : String :=
  String.mk (squeezeDash ((stringsToLower s).data.map sepToDash))

/-- The error observed from the os.Stat call in fileExists: none models a
    nil error, some an error value, which either satisfies os.IsNotExist
    or is any other stat failure (for example a permission error). -/
inductive StatError
  | notExist
  | other
deriving DecidableEq, BEq

/-- Models os.IsNotExist from the Go standard library. -/
def isNotExist : Option StatError → Bool
  | some StatError.notExist => true
  | _ => false

/-- fileExists from simple.go: stat the path, report false when the error
    satisfies os.IsNotExist, otherwise report whether the error is nil. -/
def fileExists (stat : String → Option StatError) (f : String) : Bool :=
  let err := stat f
  if isNotExist err then false
  else err == none

/-- Models path.Join from the Go standard library as used in simple.go:
    the mirror root joined with the URL path.  Go additionally cleans the
    resulting path; no claim depends on cleaning, so the model simply
    inserts a separator. -/
def pathJoin (a b : String) : String := a ++ "/" ++ b

/-- A row of the package relation: package(name TEXT, last_serial INTEGER). -/
structure PackageRow where
  name : String
  last_serial : Int
deriving DecidableEq

/-- A row of the file relation:
    file(name, release, filename, url, size, requires_python, sha256_digest). -/
structure FileRow where
  name : String
  release : String
  filename : String
  url : String
  size : Int
  requires_python : Option String
  sha256_digest : String
deriving DecidableEq

/-- The read-only metadata store consumed by the server: the package and
    file relations of the sqlite database. -/
structure Store where
  packages : List PackageRow
  files : List FileRow
deriving DecidableEq

/-- The http.ResponseWriter as observed by the handlers: the explicitly
    written status code, if any, and the list of written chunks, one chunk
    per Fprintf call.  Go reports status 200 when the body is written
    without an explicit WriteHeader call. -/
structure ResponseWriter where
  status : Option Nat
  chunks : List String
deriving DecidableEq

/-- The writer before the handler runs. -/
def ResponseWriter.empty : ResponseWriter := ⟨none, []⟩

/-- One Fprintf call: appends a chunk to the body. -/
def ResponseWriter.write (w : ResponseWriter) (s : String) : ResponseWriter :=
  ⟨w.status, w.chunks ++ [s]⟩

/-- The status code the client observes: the explicitly written one, or
    200 once the body is written without one. -/
def ResponseWriter.effectiveStatus (w : ResponseWriter) : Nat := w.status.getD 200

/-- Models html.EscapeString from the Go standard library on one
    character: the five special characters become entities. -/
def escChar (c : Char) : List Char :=
  if c = '&' then "&amp;".data
  else if c = Char.ofNat 39 then "&#39;".data
  else if c = '<' then "&lt;".data
  else if c = '>' then "&gt;".data
  else if c = Char.ofNat 34 then "&#34;".data
  else [c]

/-- Models html.EscapeString from the Go standard library. -/
def escapeString (s : String) : String := String.mk (s.data.flatMap escChar)

/-- The header chunk of the index page, written by the first Fprint of
    simpleIndex. -/
def indexHeader : String :=
  "<!DOCTYPE html>\n<html>\n  <head>\n\t<title>Simple index</title>\n  </head>\n  <body>\n"

/-- The closing chunk of the index page. -/
def indexFooter : String := "  </body>\n  </html>\n"

/-- The anchor line simpleIndex emits for one package row: the link
    target is the canonical name, the display text the stored raw name. -/
def indexAnchor (name : String) : String :=
  "    <a href=\"./" ++ canonicalizeName name ++ "\">" ++ name ++ "</a><br/>\n"

/-- The header chunk of a project page, written by the first Fprintf of
    simpleProject. -/
def projectHeader (project : String) : String :=
  "<!DOCTYPE html>\n<html>\n  <head>\n\t<title>Links for " ++ project ++
    "</title>\n  </head>\n  <body>\n\t<h1>Links for " ++ project ++ "</h1>\n"

/-- The closing chunk of a project page, carrying the serial sentinel. -/
def projectFooter (lastSerial : Int) : String :=
  "  </body>\n</html>\n<!--SERIAL \x7b" ++ toString lastSerial ++ "\x7d-->"

/-- The optional data-requires-python attribute of an anchor: present
    exactly when the requires_python column is non-null, with the value
    HTML-escaped. -/
def paramsFor : Option String → String
  | none => ""
  | some v => " data-requires-python=\"" ++ escapeString v ++ "\""

/-- The anchor line simpleProject emits for one present file row, for the
    URL path component p. -/
def anchorChunk (p : String) (r : FileRow) : String :=
  "    <a href=\"../.." ++ p ++ "#sha256=" ++ r.sha256_digest ++ "\"" ++
    paramsFor r.requires_python ++ ">" ++ r.filename ++ "</a><br/>\n"

/-- Models the query select name from package order by name: the stored
    names in ascending lexicographic order (sqlite compares TEXT columns
    byte-wise, which on UTF-8 agrees with the codepoint order used here). -/
def sortedNames (store : Store) : List String :=
  List.insertionSort (· ≤ ·) (store.packages.map PackageRow.name)

/-- The row loop of simpleIndex over the scanned rows: a row that fails
    to scan (none) aborts the whole process through log.Fatal, modelled
    as none; a scanned name yields its anchor line. -/
def indexGo : List (Option String) → ResponseWriter → Option ResponseWriter
  | [], w => some (w.write indexFooter)
  | none :: _, _ => none
  | some n :: rest, w => indexGo rest (w.write (indexAnchor n))

/-- simpleIndex from simple.go applied to an explicit list of scan
    results, header already to be written first. -/
def simpleIndexRows (rows : List (Option String)) : Option ResponseWriter :=
  indexGo rows (ResponseWriter.empty.write indexHeader)

/-- simpleIndex from simple.go: renders the full project list page. -/
def simpleIndex (store : Store) : Option ResponseWriter :=
  simpleIndexRows ((sortedNames store).map some)

/-- The outcome of the project handler: a finished response with its
    rendered and missing counters (the values the final log line reports),
    or a runtime panic raised part-way through the body. -/
inductive ProjectResult
  | ok (w : ResponseWriter) (filesCount filesMissing : Nat)
  | panicked (w : ResponseWriter)
deriving DecidableEq

/-- The row loop of simpleProject.  A row that fails to scan is logged and
    skipped.  For a scanned row the stored url is parsed; the Go code
    discards the parse error and dereferences the resulting nil pointer
    through u.Path, so a url that fails to parse (parse returns none)
    panics the handler.  Otherwise the file presence filter decides
    between emitting the anchor (counted rendered) and counting the row
    missing.  After the loop the footer with the serial sentinel is
    written. -/
def projectGo (dir : String) (stat : String → Option StatError)
    (parse : String → Option String) (lastSerial : Int) :
    List (Option FileRow) → ResponseWriter → Nat → Nat → ProjectResult
  | [], w, filesCount, filesMissing =>
      ProjectResult.ok (w.write (projectFooter lastSerial)) filesCount filesMissing
  | none :: rest, w, filesCount, filesMissing =>
      projectGo dir stat parse lastSerial rest w filesCount filesMissing
  | some r :: rest, w, filesCount, filesMissing =>
      match parse r.url with
      | none => ProjectResult.panicked w
      | some p =>
          if fileExists stat (pathJoin dir p) then
            projectGo dir stat parse lastSerial rest
              (w.write (anchorChunk p r)) (filesCount + 1) filesMissing
          else
            projectGo dir stat parse lastSerial rest w filesCount (filesMissing + 1)

/-- The body of simpleProject after a successful serial lookup, applied
    to an explicit list of scan results. -/
def simpleProjectRows (dir : String) (stat : String → Option StatError)
    (parse : String → Option String) (lastSerial : Int) (project : String)
    (rows : List (Option FileRow)) : ProjectResult :=
  projectGo dir stat parse lastSerial rows
    (ResponseWriter.empty.write (projectHeader project)) 0 0

/-- Models the query select ... from file where name=?: the file rows of
    the project, in table order. -/
def projectRows (store : Store) (project : String) : List FileRow :=
  store.files.filter (fun f => f.name == project)

/-- simpleProject from simple.go: look the project up by its exact stored
    name; when the lookup scan fails (no row), write status 403 and
    return; otherwise render the file list page. -/
def simpleProject (store : Store) (dir : String)
    (stat : String → Option StatError) (parse : String → Option String)
    (project : String) : ProjectResult :=
  match store.packages.find? (fun q => q.name == project) with
  | none => ProjectResult.ok ⟨some 403, []⟩ 0 0
  | some p =>
      simpleProjectRows dir stat parse p.last_serial project
        ((projectRows store project).map some)

/-- The dispatch result of the simple handler. -/
inductive RouteResult
  | index (r : Option ResponseWriter)
  | project (r : ProjectResult)
deriving DecidableEq

/-- simple from simple.go: split the request path on slashes; an empty
    third segment selects the index, any other value is canonicalized and
    rendered as a project.  (Go would panic on a path with fewer than two
    slashes; such a path never reaches this handler because it is
    registered under the /simple/ tree.) -/
def simple (store : Store) (dir : String) (stat : String → Option StatError)
    (parse : String → Option String) (reqPath : String) : RouteResult :=
  let parts := reqPath.splitOn "/"
  if parts.getD 2 "" = "" then RouteResult.index (simpleIndex store)
  else RouteResult.project
    (simpleProject store dir stat parse (canonicalizeName (parts.getD 2 "")))

/-- Whether a file row passes the presence filter: its url parses and the
    joined path exists under the mirror root. -/
def rowPresent (dir : String) (stat : String → Option StatError)
    (parse : String → Option String) (r : FileRow) : Bool :=
  match parse r.url with
  | none => false
  | some p => fileExists stat (pathJoin dir p)

/-- The anchor a file row contributes to the page, if any. -/
def rowAnchor (dir : String) (stat : String → Option StatError)
    (parse : String → Option String) (r : FileRow) : Option String :=
  match parse r.url with
  | none => none
  | some p =>
      if fileExists stat (pathJoin dir p) then some (anchorChunk p r) else none

/-- A sample file row whose file exists under the mirror root. -/
def demoFile1 : FileRow :=
  ⟨"demo", "1.0", "demo-1.0.tar.gz", "/packages/demo-1.0.tar.gz", 10, none, "aaa"⟩

/-- A sample file row with a requires_python value; its file exists. -/
def demoFile2 : FileRow :=
  ⟨"demo", "1.1", "demo-1.1.whl", "/packages/demo-1.1.whl", 11, some ">=3.8", "bbb"⟩

/-- A sample file row whose file is absent from the mirror. -/
def demoFile3 : FileRow :=
  ⟨"demo", "1.2", "demo-1.2.whl", "/packages/demo-1.2.whl", 12, none, "ccc"⟩

/-- A sample store: one package with serial 42 and three file rows. -/
def demoStore : Store := ⟨[⟨"demo", 42⟩], [demoFile1, demoFile2, demoFile3]⟩

/-- A sample filesystem on which exactly the first two demo files exist. -/
def demoStat : String → Option StatError := fun s =>
  if s == "root//packages/demo-1.0.tar.gz" || s == "root//packages/demo-1.1.whl" then none
  else some StatError.notExist

example : canonicalizeName "Django_REST-Framework" = "django-rest-framework" := by decide
example : escapeString ">=3.8" = "&gt;=3.8" := by decide

/-! ### Canonicalization lemmas -/

lemma squeezeDash_dash_dash (xs : List Char) :
    squeezeDash ('-' :: '-' :: xs) = squeezeDash ('-' :: xs) := by
  rw [squeezeDash]
  simp

lemma replRuns_squeeze (l : List Char) :
    replRuns l false = squeezeDash (l.map sepToDash) ∧
      '-' :: replRuns l true = squeezeDash ('-' :: l.map sepToDash) := by
  induction l with
  | nil => exact ⟨rfl, rfl⟩
  | cons c rest ih =>
    by_cases hc : isSep c = true
    · have hcd : sepToDash c = '-' := by simp [sepToDash, hc]
      constructor
      · rw [List.map_cons, hcd]
        rw [replRuns, if_pos hc]
        exact ih.2
      · rw [List.map_cons, hcd, squeezeDash_dash_dash]
        rw [replRuns, if_pos hc]
        exact ih.2
    · have hcb : isSep c = false := by simpa using hc
      have hcd : sepToDash c = c := by simp [sepToDash, hcb]
      have hcdash : c ≠ '-' := by
        intro h
        rw [h] at hcb
        simp [isSep] at hcb
      have part1 : replRuns (c :: rest) false = squeezeDash ((c :: rest).map sepToDash) := by
        rw [List.map_cons, hcd, replRuns, if_neg (by simp [hcb])]
        cases rest with
        | nil => rfl
        | cons d t =>
          rw [List.map_cons, squeezeDash, if_neg (by intro h; exact hcdash h.1)]
          rw [← List.map_cons]
          rw [ih.1]
      refine ⟨part1, ?_⟩
      have part1b : c :: replRuns rest false = squeezeDash (c :: List.map sepToDash rest) := by
        rw [List.map_cons, hcd] at part1
        rw [← part1, replRuns, if_neg (by simp [hcb])]
      rw [List.map_cons, hcd, squeezeDash, if_neg (by intro h; exact hcdash h.2)]
      rw [replRuns, if_neg (by simp [hcb]), ← part1b]

lemma mem_replRuns : ∀ (l : List Char) (b : Bool), ∀ c ∈ replRuns l b, c = '-' ∨ c ∈ l := by
  intro l
  induction l with
  | nil =>
    intro b c hc
    simp [replRuns] at hc
  | cons a t ih =>
    intro b c hc
    rw [replRuns] at hc
    by_cases ha : isSep a = true
    · rw [if_pos ha] at hc
      cases b with
      | true =>
        rcases ih true c hc with h | h
        · exact Or.inl h
        · exact Or.inr (List.mem_cons_of_mem _ h)
      | false =>
        rcases List.mem_cons.1 hc with h | h
        · exact Or.inl h
        · rcases ih true c h with h2 | h2
          · exact Or.inl h2
          · exact Or.inr (List.mem_cons_of_mem _ h2)
    · rw [if_neg ha] at hc
      rcases List.mem_cons.1 hc with h | h
      · exact Or.inr (h ▸ List.mem_cons_self _ _)
      · rcases ih false c h with h2 | h2
        · exact Or.inl h2
        · exact Or.inr (List.mem_cons_of_mem _ h2)

lemma mem_squeezeDash : ∀ (l : List Char), ∀ c ∈ squeezeDash l, c ∈ l := by
  intro l
  induction l with
  | nil =>
    intro c hc
    simp [squeezeDash] at hc
  | cons a t ih =>
    cases t with
    | nil =>
      intro c hc
      simpa [squeezeDash] using hc
    | cons b t2 =>
      intro c hc
      rw [squeezeDash] at hc
      by_cases hab : a = '-' ∧ b = '-'
      · rw [if_pos hab] at hc
        exact List.mem_cons_of_mem _ (ih c hc)
      · rw [if_neg hab] at hc
        rcases List.mem_cons.1 hc with h | h
        · exact h ▸ List.mem_cons_self _ _
        · exact List.mem_cons_of_mem _ (ih c h)

lemma squeezeDash_cons : ∀ (t : List Char) (a : Char), ∃ u, squeezeDash (a :: t) = a :: u := by
  intro t
  induction t with
  | nil => intro a; exact ⟨[], rfl⟩
  | cons b t2 ih =>
    intro a
    by_cases hab : a = '-' ∧ b = '-'
    · rcases ih b with ⟨u, hu⟩
      refine ⟨u, ?_⟩
      rw [squeezeDash, if_pos hab, hu, hab.1, hab.2]
    · exact ⟨squeezeDash (b :: t2), by rw [squeezeDash, if_neg hab]⟩

lemma squeezeDash_idem : ∀ l : List Char, squeezeDash (squeezeDash l) = squeezeDash l := by
  intro l
  induction l with
  | nil => rfl
  | cons a t ih =>
    cases t with
    | nil => rfl
    | cons b t2 =>
      by_cases hab : a = '-' ∧ b = '-'
      · rw [squeezeDash, if_pos hab]
        exact ih
      · rw [squeezeDash, if_neg hab]
        rcases squeezeDash_cons t2 b with ⟨u, hu⟩
        rw [hu, squeezeDash, if_neg hab, ← hu, ih, hu]

lemma map_eq_self_of_fixed {α : Type} (f : α → α) :
    ∀ l : List α, (∀ c ∈ l, f c = c) → l.map f = l := by
  intro l
  induction l with
  | nil => intro _; rfl
  | cons a t ih =>
    intro h
    rw [List.map_cons, h a (List.mem_cons_self _ _), ih (fun c hc => h c (List.mem_cons_of_mem _ hc))]

lemma char_toNat_ofNat_valid (n : Nat) (h : n.isValidChar) : (Char.ofNat n).toNat = n := by
  rw [Char.ofNat, dif_pos h]
  rfl

lemma toLower_idem (c : Char) : c.toLower.toLower = c.toLower := by
  unfold Char.toLower
  by_cases h : c.toNat ≥ 65 ∧ c.toNat ≤ 90
  · rw [if_pos h]
    have hv : (c.toNat + 32).isValidChar := Or.inl (by omega)
    have ht : (Char.ofNat (c.toNat + 32)).toNat = c.toNat + 32 :=
      char_toNat_ofNat_valid _ hv
    rw [if_neg (by rw [ht]; omega)]
  · rw [if_neg h, if_neg h]

lemma sepToDash_idem (c : Char) : sepToDash (sepToDash c) = sepToDash c := by
  by_cases h : isSep c = true
  · have h1 : sepToDash c = '-' := by simp [sepToDash, h]
    rw [h1]
    decide
  · have h1 : sepToDash c = c := by simp [sepToDash, h]
    rw [h1]
    exact h1

lemma canonList_idem (l : List Char) :
    replRuns ((replRuns (l.map Char.toLower) false).map Char.toLower) false
      = replRuns (l.map Char.toLower) false := by
  set L := l.map Char.toLower with hL
  set out := replRuns L false with hout
  have hfix : ∀ c ∈ out, Char.toLower c = c := by
    intro c hc
    rcases mem_replRuns L false c hc with h | h
    · rw [h]
      decide
    · rcases List.mem_map.1 h with ⟨d, _, rfl⟩
      exact toLower_idem d
  have hmap : out.map Char.toLower = out := map_eq_self_of_fixed _ out hfix
  rw [hmap]
  have hsq : out = squeezeDash (L.map sepToDash) := (replRuns_squeeze L).1
  have hsfix : ∀ c ∈ out, sepToDash c = c := by
    intro c hc
    rw [hsq] at hc
    have hc2 := mem_squeezeDash _ c hc
    rcases List.mem_map.1 hc2 with ⟨d, _, rfl⟩
    exact sepToDash_idem d
  have hmap2 : out.map sepToDash = out := map_eq_self_of_fixed _ out hsfix
  calc replRuns out false = squeezeDash (out.map sepToDash) := (replRuns_squeeze out).1
    _ = squeezeDash out := by rw [hmap2]
    _ = out := by rw [hsq, squeezeDash_idem]

lemma canonicalizeName_idem (x : String) :
    canonicalizeName (canonicalizeName x) = canonicalizeName x := by
  show String.mk (replRuns ((replRuns (x.data.map Char.toLower) false).map Char.toLower) false)
      = String.mk (replRuns (x.data.map Char.toLower) false)
  exact congrArg String.mk (canonList_idem x.data)

lemma canonicalizeName_congr_lower {x y : String}
    (h : stringsToLower x = stringsToLower y) :
    canonicalizeName x = canonicalizeName y := by
  unfold canonicalizeName
  rw [h]

lemma canonicalizeName_eq_spec (s : String) : canonicalizeName s = canonicalizeSpec s :=
  congrArg String.mk (replRuns_squeeze (stringsToLower s).data).1


/-! ### Renderer lemmas -/

lemma indexGo_map_some : ∀ (l : List String) (w : ResponseWriter),
    indexGo (l.map some) w =
      some ⟨w.status, w.chunks ++ l.map indexAnchor ++ [indexFooter]⟩ := by
  intro l
  induction l with
  | nil =>
    intro w
    simp [indexGo, ResponseWriter.write]
  | cons n t ih =>
    intro w
    rw [List.map_cons, indexGo, ih]
    simp [ResponseWriter.write]

lemma projectGo_ok (dir : String) (stat : String → Option StatError)
    (parse : String → Option String) (serial : Int) :
    ∀ (rows : List (Option FileRow)) (w : ResponseWriter) (fc fm : Nat),
    (∀ r : FileRow, some r ∈ rows → (parse r.url).isSome) →
    projectGo dir stat parse serial rows w fc fm =
      ProjectResult.ok
        ⟨w.status,
          w.chunks ++ rows.filterMap (fun o => o.bind (rowAnchor dir stat parse)) ++
            [projectFooter serial]⟩
        (fc + rows.countP (fun o => (o.map (rowPresent dir stat parse)).getD false))
        (fm + rows.countP (fun o => (o.map (fun r => !rowPresent dir stat parse r)).getD false)) := by
  intro rows
  induction rows with
  | nil =>
    intro w fc fm _
    simp [projectGo, ResponseWriter.write]
  | cons o rest ih =>
    intro w fc fm h
    cases o with
    | none =>
      rw [projectGo, ih _ _ _ (fun r hr => h r (List.mem_cons_of_mem _ hr))]
      simp
    | some r =>
      have hp : (parse r.url).isSome := h r (List.mem_cons_self _ _)
      rcases Option.isSome_iff_exists.1 hp with ⟨p, hpe⟩
      have hrest : ∀ q : FileRow, some q ∈ rest → (parse q.url).isSome :=
        fun q hq => h q (List.mem_cons_of_mem _ hq)
      by_cases hfe : fileExists stat (pathJoin dir p) = true
      · have hstep : projectGo dir stat parse serial (some r :: rest) w fc fm
            = projectGo dir stat parse serial rest (w.write (anchorChunk p r)) (fc + 1) fm := by
          simp [projectGo, hpe, hfe]
        have hpres : rowPresent dir stat parse r = true := by
          simp only [rowPresent, hpe]
          exact hfe
        have hanch : rowAnchor dir stat parse r = some (anchorChunk p r) := by
          simp only [rowAnchor, hpe]
          rw [if_pos hfe]
        rw [hstep, ih _ _ _ hrest]
        simp [ResponseWriter.write, hpres, hanch]
        omega
      · have hfe2 : fileExists stat (pathJoin dir p) = false := by simpa using hfe
        have hstep : projectGo dir stat parse serial (some r :: rest) w fc fm
            = projectGo dir stat parse serial rest w fc (fm + 1) := by
          simp [projectGo, hpe, hfe2]
        have hpres : rowPresent dir stat parse r = false := by
          simp only [rowPresent, hpe]
          exact hfe2
        have hanch : rowAnchor dir stat parse r = none := by
          simp only [rowAnchor, hpe]
          rw [if_neg hfe]
        rw [hstep, ih _ _ _ hrest]
        simp [hpres, hanch]
        omega

/-! ### Claims -/

/-- C1: for a package found in the store with serial N, the project page
    emits exactly one anchor per file row whose stored URL path exists
    under the mirror root, counts the absent rows in the missing counter
    without emitting anything for them and without touching the status,
    and ends with a footer carrying the literal sentinel
    SERIAL-in-braces N, independent of how many rows were filtered out. -/
theorem c1_serial_and_presence (store : Store) (dir : String)
    (stat : String → Option StatError) (parse : String → Option String)
    (proj : String) (p : PackageRow)
    (hfind : store.packages.find? (fun q => q.name == proj) = some p)
    (hparse : ∀ r ∈ projectRows store proj, (parse r.url).isSome) :
    simpleProject store dir stat parse proj =
      ProjectResult.ok
        ⟨none,
          projectHeader proj ::
            ((projectRows store proj).filterMap (rowAnchor dir stat parse) ++
              ["  </body>\n</html>\n<!--SERIAL \x7b" ++ toString p.last_serial ++ "\x7d-->"])⟩
        ((projectRows store proj).countP (rowPresent dir stat parse))
        ((projectRows store proj).countP (fun r => !rowPresent dir stat parse r)) := by
  have hyp : ∀ r : FileRow, some r ∈ (projectRows store proj).map some →
      (parse r.url).isSome := by
    intro r hr
    rcases List.mem_map.1 hr with ⟨q, hq, he⟩
    obtain rfl : q = r := Option.some.inj he
    exact hparse _ hq
  simp only [simpleProject, hfind]
  unfold simpleProjectRows
  rw [projectGo_ok dir stat parse p.last_serial ((projectRows store proj).map some) _ 0 0 hyp]
  simp [ResponseWriter.empty, ResponseWriter.write, List.filterMap_map, List.countP_map,
    Function.comp_def, projectFooter]

/-- C2: a requested name whose canonical form matches no package row gets
    status 403, with no body written. -/
theorem c2_unknown_project_403 (store : Store) (dir : String)
    (stat : String → Option StatError) (parse : String → Option String)
    (seg : String)
    (hfind : store.packages.find? (fun q => q.name == canonicalizeName seg) = none) :
    simpleProject store dir stat parse (canonicalizeName seg) =
      ProjectResult.ok ⟨some 403, []⟩ 0 0 := by
  simp only [simpleProject, hfind]

/-- C3: canonicalizeName equals the lowercase form with every maximal run
    of dash, underscore, dot collapsed to a single dash; in particular the
    name Django_REST-Framework canonicalizes to django-rest-framework. -/
theorem c3_canonicalize_matches_spec :
    (∀ s : String, canonicalizeName s = canonicalizeSpec s) ∧
      canonicalizeName "Django_REST-Framework" = "django-rest-framework" :=
  ⟨canonicalizeName_eq_spec, by decide⟩

/-- C4: a rendered file row carries the data-requires-python attribute,
    HTML-escaped, exactly when requires_python is non-null, while the
    path, digest and filename are interpolated verbatim; and the raw
    value ge-3.8 escapes to its entity form. -/
theorem c4_requires_python_escaped (dir : String) (stat : String → Option StatError)
    (parse : String → Option String) (serial : Int) (proj : String) (r : FileRow)
    (p : String)
    (hparse : parse r.url = some p)
    (hstat : stat (pathJoin dir p) = none) :
    simpleProjectRows dir stat parse serial proj [some r] =
      ProjectResult.ok
        ⟨none, [projectHeader proj,
          "    <a href=\"../.." ++ p ++ "#sha256=" ++ r.sha256_digest ++ "\"" ++
            (match r.requires_python with
             | none => ""
             | some v => " data-requires-python=\"" ++ escapeString v ++ "\"") ++
            ">" ++ r.filename ++ "</a><br/>\n",
          projectFooter serial]⟩ 1 0
    ∧ escapeString ">=3.8" = "&gt;=3.8" := by
  have hfe : fileExists stat (pathJoin dir p) = true := by
    simp [fileExists, hstat, isNotExist]
  refine ⟨?_, by decide⟩
  rcases hrp : r.requires_python with _ | v <;>
    simp [simpleProjectRows, projectGo, hparse, hfe, ResponseWriter.empty,
      ResponseWriter.write, anchorChunk, paramsFor, hrp]

/-- C5: canonicalizeName is idempotent, and depends on its input only
    through its lowercase form, hence is case-insensitive. -/
theorem c5_canonicalize_idem_case_insensitive (x y : String)
    (h : stringsToLower x = stringsToLower y) :
    canonicalizeName (canonicalizeName x) = canonicalizeName x ∧
      canonicalizeName x = canonicalizeName y :=
  ⟨canonicalizeName_idem x, canonicalizeName_congr_lower h⟩

theorem c5_witness :
    stringsToLower "Ab_c" = stringsToLower "aB_C" ∧
      (canonicalizeName (canonicalizeName "Ab_c") = canonicalizeName "Ab_c" ∧
        canonicalizeName "Ab_c" = canonicalizeName "aB_C") :=
  ⟨by decide, c5_canonicalize_idem_case_insensitive "Ab_c" "aB_C" (by decide)⟩

/-- C6: the index page holds exactly one anchor per package row, in
    ascending order of the stored names, each pointing at the canonical
    name and showing the raw name, with status 200 also for an empty
    store. -/
theorem c6_index_page (store : Store) :
    simpleIndex store =
      some ⟨none, indexHeader :: ((sortedNames store).map indexAnchor ++ [indexFooter])⟩
    ∧ ResponseWriter.effectiveStatus
        ⟨none, indexHeader :: ((sortedNames store).map indexAnchor ++ [indexFooter])⟩ = 200
    ∧ List.Sorted (fun a b : String => a ≤ b) (sortedNames store)
    ∧ (sortedNames store).Perm (store.packages.map PackageRow.name)
    ∧ ((sortedNames store).map indexAnchor).length = store.packages.length := by
  refine ⟨?_, rfl, ?_, ?_, ?_⟩
  · unfold simpleIndex simpleIndexRows
    rw [indexGo_map_some]
    simp [ResponseWriter.empty, ResponseWriter.write]
  · unfold sortedNames
    exact List.sorted_insertionSort _ _
  · unfold sortedNames
    exact List.perm_insertionSort _ _
  · unfold sortedNames
    rw [List.length_map, (List.perm_insertionSort _ _).length_eq, List.length_map]

/-- C7: the presence check reports a file present exactly when the stat
    call returns no error; any stat error, also one that is not a
    does-not-exist error, makes the file count as absent. -/
theorem c7_file_exists_iff_stat_ok (stat : String → Option StatError) (f : String) :
    (fileExists stat f = true ↔ stat f = none) ∧
      fileExists (fun _ => some StatError.other) f = false := by
  refine ⟨⟨?_, ?_⟩, by simp [fileExists, isNotExist]⟩
  · intro h
    simp only [fileExists] at h
    match he : stat f with
    | none => rfl
    | some StatError.notExist =>
      rw [he] at h
      exact absurd h (by decide)
    | some StatError.other =>
      rw [he] at h
      exact absurd h (by decide)
  · intro h
    simp [fileExists, h, isNotExist]

/-- C8: the project row loop logs and skips a row that fails to scan, but
    the index row loop treats a scan failure as fatal to the process
    (log.Fatal), so rendering does not continue there: on an index row
    list whose second row fails to scan the result is the fatal outcome,
    while the same situation in a project page skips the bad row and
    still renders the rest. -/
theorem c8_index_scan_fatal :
    simpleIndexRows [some "alpha", none, some "beta"] = none
    ∧ simpleProjectRows "root" (fun _ => none) (fun s => some s) 5 "proj"
        [none, some ⟨"proj", "1.0", "f.whl", "/packages/f.whl", 3, none, "dd"⟩] =
      ProjectResult.ok
        ⟨none, [projectHeader "proj",
          anchorChunk "/packages/f.whl" ⟨"proj", "1.0", "f.whl", "/packages/f.whl", 3, none, "dd"⟩,
          projectFooter 5]⟩ 1 0 := by
  constructor
  · rfl
  · decide

/-- C9: a file row whose stored url fails to parse does not get skipped:
    the code discards the parse error from url.Parse and dereferences the
    nil result, so the handler panics part-way through the page instead
    of rendering the remaining rows and the footer. -/
theorem c9_url_parse_panics :
    simpleProject
        ⟨[⟨"proj", 7⟩], [⟨"proj", "1.0", "f.whl", "%zz", 3, none, "dd"⟩]⟩
        "root" (fun _ => none) (fun _ => none) "proj" =
      ProjectResult.panicked ⟨none, [projectHeader "proj"]⟩ := by decide

/-- C10: the project lookup compares the canonicalized request segment
    with the raw stored name column, so a package whose stored name is
    not in canonical form is unreachable: any request spelling that
    canonicalizes like its name, in particular its own index link
    target, yields status 403 when no other row carries the canonical
    name. -/
theorem c10_noncanonical_unreachable (store : Store) (dir : String)
    (stat : String → Option StatError) (parse : String → Option String)
    (p : PackageRow) (_hp : p ∈ store.packages)
    (_hnc : p.name ≠ canonicalizeName p.name)
    (hno : ∀ q ∈ store.packages, q.name ≠ canonicalizeName p.name)
    (seg : String) (hseg : canonicalizeName seg = canonicalizeName p.name) :
    simpleProject store dir stat parse (canonicalizeName seg) =
      ProjectResult.ok ⟨some 403, []⟩ 0 0 := by
  have hfind : store.packages.find? (fun q => q.name == canonicalizeName seg) = none := by
    rw [List.find?_eq_none]
    intro q hq
    rw [hseg]
    simpa using hno q hq
  simp only [simpleProject, hfind]

theorem c1_witness :
    (demoStore.packages.find? (fun q => q.name == "demo") = some ⟨"demo", 42⟩)
    ∧ (∀ r ∈ projectRows demoStore "demo", ((fun s => Option.some s) r.url).isSome)
    ∧ simpleProject demoStore "root" demoStat (fun s => Option.some s) "demo" =
        ProjectResult.ok
          ⟨none,
            projectHeader "demo" ::
              ((projectRows demoStore "demo").filterMap
                  (rowAnchor "root" demoStat (fun s => Option.some s)) ++
                ["  </body>\n</html>\n<!--SERIAL \x7b" ++ toString (42 : Int) ++ "\x7d-->"])⟩
          ((projectRows demoStore "demo").countP
            (rowPresent "root" demoStat (fun s => Option.some s)))
          ((projectRows demoStore "demo").countP
            (fun r => !rowPresent "root" demoStat (fun s => Option.some s) r)) :=
  ⟨by decide, by decide,
    c1_serial_and_presence demoStore "root" demoStat (fun s => Option.some s) "demo"
      ⟨"demo", 42⟩ (by decide) (by decide)⟩

theorem c2_witness :
    ((Store.mk [⟨"numpy", 7⟩] []).packages.find?
        (fun q => q.name == canonicalizeName "Pandas") = none)
    ∧ simpleProject (Store.mk [⟨"numpy", 7⟩] []) "root" (fun _ => none)
        (fun s => Option.some s) (canonicalizeName "Pandas") =
      ProjectResult.ok ⟨some 403, []⟩ 0 0 :=
  ⟨by decide,
    c2_unknown_project_403 (Store.mk [⟨"numpy", 7⟩] []) "root" (fun _ => none)
      (fun s => Option.some s) "Pandas" (by decide)⟩

theorem c4_witness :
    ((fun s => Option.some s) demoFile2.url = some "/packages/demo-1.1.whl")
    ∧ (demoStat (pathJoin "root" "/packages/demo-1.1.whl") = none)
    ∧ (simpleProjectRows "root" demoStat (fun s => Option.some s) 9 "demo" [some demoFile2] =
        ProjectResult.ok
          ⟨none, [projectHeader "demo",
            "    <a href=\"../.." ++ "/packages/demo-1.1.whl" ++ "#sha256=" ++
              demoFile2.sha256_digest ++ "\"" ++
              (match demoFile2.requires_python with
               | none => ""
               | some v => " data-requires-python=\"" ++ escapeString v ++ "\"") ++
              ">" ++ demoFile2.filename ++ "</a><br/>\n",
            projectFooter 9]⟩ 1 0
      ∧ escapeString ">=3.8" = "&gt;=3.8") :=
  ⟨rfl, by decide,
    c4_requires_python_escaped "root" demoStat (fun s => Option.some s) 9 "demo" demoFile2
      "/packages/demo-1.1.whl" rfl (by decide)⟩

theorem c10_witness :
    ((⟨"Foo", 1⟩ : PackageRow) ∈ (Store.mk [⟨"Foo", 1⟩] []).packages)
    ∧ (⟨"Foo", 1⟩ : PackageRow).name ≠ canonicalizeName (⟨"Foo", 1⟩ : PackageRow).name
    ∧ (∀ q ∈ (Store.mk [⟨"Foo", 1⟩] []).packages,
        q.name ≠ canonicalizeName (⟨"Foo", 1⟩ : PackageRow).name)
    ∧ canonicalizeName "foo" = canonicalizeName (⟨"Foo", 1⟩ : PackageRow).name
    ∧ simpleProject (Store.mk [⟨"Foo", 1⟩] []) "root" (fun _ => none)
        (fun s => Option.some s) (canonicalizeName "foo") =
      ProjectResult.ok ⟨some 403, []⟩ 0 0 :=
  ⟨by decide, by decide, by decide, by decide,
    c10_noncanonical_unreachable (Store.mk [⟨"Foo", 1⟩] []) "root" (fun _ => none)
      (fun s => Option.some s) ⟨"Foo", 1⟩ (by decide) (by decide) (by decide) "foo" (by decide)⟩
